import Mathlib

/-!
Shallow embedding of the Replicate n8n node
(`src/nodes/ReplicateGen/ReplicateGen.node.ts`) and proofs about it.

The embedding models:
* the per-item status-polling loop of `execute` (lines 311-344), including
  the `numErrors` counter, the fixed 5-unit pre-poll delay, the 10-unit
  error backoff, and the fact that after a caught transport error control
  falls through to the `responseData.status` check on the *previous*
  (possibly undefined) response;
* the submission check `res.urls?.get` (lines 304-309);
* the batch loop over input items (lines 280-351), threading the
  `responseData` variable that is declared outside the item loop;
* `mapProperties` (lines 359-377) over a JS-object model;
* the type coercion in `getModelProperties` (lines 250-255);
* the sort-and-filter logic of `getModelVersions` (lines 211-222).

Time delays are recorded as abstract units (5 for the pre-poll wait of
`setTimeout(..., 5000)`, 10 for the error backoff `setTimeout(..., 10000)`).
-/

/-- A status-poll response payload: the `status` field that the loop
inspects, plus one field standing for the rest of the JSON payload
(passed through verbatim). -/
structure Payload where
  status : String
  output : Int
deriving DecidableEq, Repr

/-- Result of one GET against the status URL: either a transport error
(the `catch` branch) or a JSON payload. -/
inductive PollResult where
  | transportError
  | ok (p : Payload)
deriving Repr

/-- The mutable state of the polling loop: the `numErrors` counter, the
`responseData` variable (declared `let responseData;` at line 273, so it is
`undefined` — modelled `none` — until first assigned, and it survives
across items), the number of GET attempts issued so far, and the trace of
waits performed (in time units). -/
structure LoopState where
  numErrors : Nat
  responseData : Option Payload
  pollCount : Nat
  delays : List Nat
deriving DecidableEq, Repr

/-- How one run of the polling loop can end. `typeError` models the
JavaScript `TypeError` thrown by `responseData.status` when
`responseData` is still `undefined`. -/
inductive LoopResult where
  | success (p : Payload)
  | predictionFailed (p : Payload)
  | pollingError
  | typeError
deriving DecidableEq, Repr

/-- The status check at lines 336-343, executed at the end of every loop
iteration on whatever `responseData` currently holds. -/
def checkStatus (s : LoopState) : Sum LoopState (LoopResult × LoopState) :=
  match s.responseData with
  | none => Sum.inr (LoopResult.typeError, s)
  | some p =>
    if p.status = "failed" then Sum.inr (LoopResult.predictionFailed p, s)
    else if p.status = "succeeded" then Sum.inr (LoopResult.success p, s)
    else Sum.inl s

/-- One iteration of the `while (true)` loop (lines 313-344): wait 5
units, issue the GET (`polls s.pollCount` is its outcome), on error
increment `numErrors` and either escalate (counter above 2) or wait the
10-unit backoff and fall through to the status check; on success store
the payload in `responseData` and run the status check. -/
def pollIter (polls : Nat → PollResult) (s : LoopState) :
    Sum LoopState (LoopResult × LoopState) :=
  match polls s.pollCount with
  | PollResult.transportError =>
    if s.numErrors + 1 > 2 then
      Sum.inr (LoopResult.pollingError,
        ⟨s.numErrors + 1, s.responseData, s.pollCount + 1, s.delays ++ [5]⟩)
    else
      checkStatus ⟨s.numErrors + 1, s.responseData, s.pollCount + 1, s.delays ++ [5, 10]⟩
  | PollResult.ok p =>
    checkStatus ⟨s.numErrors, some p, s.pollCount + 1, s.delays ++ [5]⟩

/-- The polling loop, run for at most `fuel` iterations; `none` means the
loop was still running when the fuel ran out (the source loop has no
iteration bound at all). -/
def runPoll (polls : Nat → PollResult) : Nat → LoopState → Option (LoopResult × LoopState)
  | 0, _ => none
  | Nat.succ fuel, s =>
    match pollIter polls s with
    | Sum.inr r => some r
    | Sum.inl s2 => runPoll polls fuel s2

/-- The loop state at entry of the `while` loop for one item:
`numErrors = 0` (line 311), `responseData` as inherited from whatever ran
before (undefined for the first item), no GET issued yet, no wait yet. -/
def initLoopState (rd : Option Payload) : LoopState := ⟨0, rd, 0, []⟩

/-- The type coercion of `getModelProperties` (lines 250-255):
`['integer', 'number'].includes(t) ? 'number' : ['boolean'].includes(t)
? 'boolean' : 'string'`. -/
def coerceType (t : String) : String :=
  if t = "integer" ∨ t = "number" then "number"
  else if t = "boolean" then "boolean"
  else "string"

example : runPoll (fun _ => PollResult.ok ⟨"succeeded", 42⟩) 1 (initLoopState none)
    = some (LoopResult.success ⟨"succeeded", 42⟩, ⟨0, some ⟨"succeeded", 42⟩, 1, [5]⟩) := rfl

example : runPoll (fun _ => PollResult.transportError) 3 (initLoopState none)
    = some (LoopResult.typeError, ⟨1, none, 1, [5, 10]⟩) := rfl

example : coerceType "integer" = "number" := by decide

/-- Helper: one iteration whose poll succeeds with a non-terminal status
stores the payload and loops, consuming one unit of fuel. -/
theorem runPoll_pending_step (polls : Nat → PollResult) (s : LoopState) (p : Payload)
    (h0 : polls s.pollCount = PollResult.ok p)
    (h1 : p.status ≠ "failed") (h2 : p.status ≠ "succeeded") (fuel : Nat) :
    runPoll polls (fuel + 1) s
      = runPoll polls fuel ⟨s.numErrors, some p, s.pollCount + 1, s.delays ++ [5]⟩ := by
  simp only [runPoll, pollIter, h0, checkStatus, if_neg h1, if_neg h2]

/-- Helper: one iteration whose poll succeeds with status `"succeeded"`
exits the loop with that payload. -/
theorem runPoll_success_step (polls : Nat → PollResult) (s : LoopState) (p : Payload)
    (h0 : polls s.pollCount = PollResult.ok p)
    (hs : p.status = "succeeded") (fuel : Nat) :
    runPoll polls (fuel + 1) s
      = some (LoopResult.success p,
          ⟨s.numErrors, some p, s.pollCount + 1, s.delays ++ [5]⟩) := by
  have h1 : p.status ≠ "failed" := by rw [hs]; decide
  simp only [runPoll, pollIter, h0, checkStatus, if_neg h1, if_pos hs]

/-- Helper: one iteration whose poll succeeds with status `"failed"`
raises `PredictionFailedError` with that payload. -/
theorem runPoll_failed_step (polls : Nat → PollResult) (s : LoopState) (p : Payload)
    (h0 : polls s.pollCount = PollResult.ok p)
    (hs : p.status = "failed") (fuel : Nat) :
    runPoll polls (fuel + 1) s
      = some (LoopResult.predictionFailed p,
          ⟨s.numErrors, some p, s.pollCount + 1, s.delays ++ [5]⟩) := by
  simp only [runPoll, pollIter, h0, checkStatus, if_pos hs]

/-- Helper: one iteration whose poll hits a transport error while the
incremented counter is still at most 2, and whose stale `responseData`
holds a non-terminal payload, waits the 10-unit backoff and loops. -/
theorem runPoll_error_backoff_step (polls : Nat → PollResult) (s : LoopState) (q : Payload)
    (h0 : polls s.pollCount = PollResult.transportError)
    (hn : s.numErrors + 1 ≤ 2) (hq : s.responseData = some q)
    (h1 : q.status ≠ "failed") (h2 : q.status ≠ "succeeded") (fuel : Nat) :
    runPoll polls (fuel + 1) s
      = runPoll polls fuel
          ⟨s.numErrors + 1, s.responseData, s.pollCount + 1, s.delays ++ [5, 10]⟩ := by
  have hn2 : ¬s.numErrors + 1 > 2 := by omega
  simp only [runPoll, pollIter, h0, if_neg hn2, checkStatus, hq, if_neg h1, if_neg h2]

/-- Helper: one iteration whose poll hits a transport error while the
incremented counter exceeds 2 escalates at once, with no backoff wait. -/
theorem runPoll_error_fatal_step (polls : Nat → PollResult) (s : LoopState)
    (h0 : polls s.pollCount = PollResult.transportError)
    (hn : s.numErrors + 1 > 2) (fuel : Nat) :
    runPoll polls (fuel + 1) s
      = some (LoopResult.pollingError,
          ⟨s.numErrors + 1, s.responseData, s.pollCount + 1, s.delays ++ [5]⟩) := by
  simp only [runPoll, pollIter, h0, if_pos hn]

/-- Helper: a run of `k` consecutive successful polls whose first `k - 1`
statuses are non-terminal and whose `k`-th status is `"succeeded"`
terminates the loop after exactly `k` iterations, `k` GET attempts, and a
5-unit wait before every attempt, returning the `k`-th payload. Stated
from an arbitrary loop state so that it covers any starting point. -/
theorem runPoll_success_general (polls : Nat → PollResult) :
    ∀ (k : Nat) (s : LoopState) (ps : Nat → Payload),
      0 < k →
      (∀ i, i < k → polls (s.pollCount + i) = PollResult.ok (ps i)) →
      (∀ i, i + 1 < k → (ps i).status ≠ "failed" ∧ (ps i).status ≠ "succeeded") →
      (ps (k - 1)).status = "succeeded" →
      runPoll polls k s
        = some (LoopResult.success (ps (k - 1)),
            ⟨s.numErrors, some (ps (k - 1)), s.pollCount + k,
              s.delays ++ List.replicate k 5⟩) := by
  intro k
  induction k with
  | zero => intro s ps h; exact absurd h (Nat.lt_irrefl 0)
  | succ n ih =>
    intro s ps _ hok hpend hsucc
    have h0 : polls s.pollCount = PollResult.ok (ps 0) := by
      have := hok 0 (Nat.succ_pos n)
      rwa [Nat.add_zero] at this
    cases n with
    | zero =>
      rw [runPoll_success_step polls s (ps 0) h0 hsucc 0]
      simp [List.replicate]
    | succ m =>
      have hp : (ps 0).status ≠ "failed" ∧ (ps 0).status ≠ "succeeded" :=
        hpend 0 (by omega)
      rw [runPoll_pending_step polls s (ps 0) h0 hp.1 hp.2 (m + 1)]
      rw [ih ⟨s.numErrors, some (ps 0), s.pollCount + 1, s.delays ++ [5]⟩
        (fun i => ps (i + 1)) (Nat.succ_pos m)
        (by
          intro i hi
          have := hok (i + 1) (by omega)
          rwa [show s.pollCount + (i + 1) = s.pollCount + 1 + i by omega] at this)
        (by intro i hi; exact hpend (i + 1) (by omega))
        hsucc]
      have harr : s.pollCount + 1 + (m + 1) = s.pollCount + (m + 1 + 1) := by omega
      have hdel : (s.delays ++ [5]) ++ List.replicate (m + 1) 5
          = s.delays ++ List.replicate (m + 1 + 1) 5 := by
        simp [List.append_assoc, List.replicate_succ, List.singleton_append]
      rw [harr, hdel]
      rfl

/-- C1: per-item polling success path — if successive status polls are
all transport-error-free, report non-terminal statuses on polls
`1 .. k-1` and `"succeeded"` on poll `k`, the loop performs exactly `k`
GET attempts, waits the fixed 5-unit delay before every attempt
(including the first), and returns the `k`-th full response payload. -/
theorem c1_polling_success (polls : Nat → PollResult) (ps : Nat → Payload)
    (k : Nat) (rd : Option Payload) (hk : 0 < k)
    (hok : ∀ i, i < k → polls i = PollResult.ok (ps i))
    (hpend : ∀ i, i + 1 < k → (ps i).status ≠ "failed" ∧ (ps i).status ≠ "succeeded")
    (hsucc : (ps (k - 1)).status = "succeeded") :
    runPoll polls k (initLoopState rd)
      = some (LoopResult.success (ps (k - 1)),
          ⟨0, some (ps (k - 1)), k, List.replicate k 5⟩) := by
  have := runPoll_success_general polls k (initLoopState rd) ps hk
    (by intro i hi; simpa [initLoopState] using hok i hi) hpend hsucc
  simpa [initLoopState] using this

/-- The status sequence of the spec's worked example:
`"starting"`, `"processing"`, then `"succeeded"` with output 42. -/
def psDemo : Nat → Payload
  | 0 => ⟨"starting", 0⟩
  | 1 => ⟨"processing", 0⟩
  | _ => ⟨"succeeded", 42⟩

/-- Witness for C1: the `["starting", "processing", "succeeded"]` run
yields the third payload after exactly 3 polls and 3 fixed 5-unit delays. -/
theorem c1_witness :
    runPoll (fun i => PollResult.ok (psDemo i)) 3 (initLoopState none)
      = some (LoopResult.success (psDemo 2),
          ⟨0, some (psDemo 2), 3, List.replicate 3 5⟩) := by
  refine c1_polling_success (fun i => PollResult.ok (psDemo i)) psDemo 3 none
    (by decide) (fun i _ => rfl) ?_ (by decide)
  intro i hi
  have hi2 : i < 2 := by omega
  interval_cases i
  · exact ⟨by decide, by decide⟩
  · exact ⟨by decide, by decide⟩

/-- C2: a `"failed"` status in a poll response makes the loop raise
`PredictionFailedError` carrying that full payload in the same iteration
(first conjunct: from any loop state); when `"failed"` arrives on the very
first poll, the loop performs exactly 1 GET attempt before raising
(second conjunct, for any positive fuel). -/
theorem c2_prediction_failed (polls : Nat → PollResult) (p : Payload)
    (hf : p.status = "failed") :
    (∀ s : LoopState, polls s.pollCount = PollResult.ok p →
      pollIter polls s
        = Sum.inr (LoopResult.predictionFailed p,
            ⟨s.numErrors, some p, s.pollCount + 1, s.delays ++ [5]⟩))
    ∧ (∀ (rd : Option Payload) (fuel : Nat), 0 < fuel → polls 0 = PollResult.ok p →
      runPoll polls fuel (initLoopState rd)
        = some (LoopResult.predictionFailed p, ⟨0, some p, 1, [5]⟩)) := by
  constructor
  · intro s hpoll
    simp only [pollIter, hpoll, checkStatus, if_pos hf]
  · intro rd fuel hfuel hpoll
    cases fuel with
    | zero => exact absurd hfuel (Nat.lt_irrefl 0)
    | succ n =>
      have h0 : polls (initLoopState rd).pollCount = PollResult.ok p := hpoll
      rw [runPoll_failed_step polls (initLoopState rd) p h0 hf n]
      simp [initLoopState]

/-- Witness for C2: a job whose first poll reports `"failed"` raises at
once, after a single GET attempt. -/
theorem c2_witness :
    runPoll (fun _ => PollResult.ok ⟨"failed", 7⟩) 5 (initLoopState none)
      = some (LoopResult.predictionFailed ⟨"failed", 7⟩, ⟨0, some ⟨"failed", 7⟩, 1, [5]⟩) :=
  (c2_prediction_failed (fun _ => PollResult.ok ⟨"failed", 7⟩) ⟨"failed", 7⟩ rfl).2
    none 5 (by decide) rfl

/-- C7: the schema type coercion is total (every declared type maps to one
of the three accepted kinds), idempotent, and maps exactly as the spec
enumerates; there is no unsupported-type error path because `coerceType`
is a total function. -/
theorem c7_coercion_total_idempotent (t : String) :
    (coerceType t = "number" ∨ coerceType t = "boolean" ∨ coerceType t = "string")
    ∧ coerceType (coerceType t) = coerceType t
    ∧ coerceType "integer" = "number" ∧ coerceType "number" = "number"
    ∧ coerceType "boolean" = "boolean" ∧ coerceType "string" = "string"
    ∧ coerceType "array" = "string" ∧ coerceType "object" = "string" := by
  have htot : coerceType t = "number" ∨ coerceType t = "boolean" ∨ coerceType t = "string" := by
    unfold coerceType
    split_ifs <;> simp
  refine ⟨htot, ?_, by decide, by decide, by decide, by decide, by decide, by decide⟩
  rcases htot with h | h | h <;> rw [h] <;> decide

/-- C3 counterexample: from a fresh item state (no successful poll yet,
`responseData` still undefined), consecutive transport errors do NOT lead
to `PollingError` after 3 GET attempts — the very first error iteration
falls through to `responseData.status` on the undefined variable and the
run ends in a `TypeError` after a single GET attempt. -/
theorem c3_counterexample :
    runPoll (fun _ => PollResult.transportError) 3 (initLoopState none)
      = some (LoopResult.typeError, ⟨1, none, 1, [5, 10]⟩)
    ∧ runPoll (fun _ => PollResult.transportError) 3 (initLoopState none)
      ≠ some (LoopResult.pollingError, ⟨3, none, 3, [5, 10, 5, 10, 5]⟩) :=
  ⟨rfl, by decide⟩

/-- C3 (amended): provided the job has already received a successful poll
response with a non-terminal status (so `responseData` holds such a
payload) and the error counter is fresh, 3 consecutive transport errors
fail the item with `PollingError` after exactly 3 further GET attempts;
each of the first two errors is followed by the 10-unit extended backoff
(delay trace `[5, 10, 5, 10, 5]`) and the third escalates immediately
without a further backoff. -/
theorem c3_three_errors_amended (polls : Nat → PollResult) (s : LoopState) (q : Payload)
    (hrd : s.responseData = some q) (hne : s.numErrors = 0)
    (h1 : q.status ≠ "failed") (h2 : q.status ≠ "succeeded")
    (he0 : polls s.pollCount = PollResult.transportError)
    (he1 : polls (s.pollCount + 1) = PollResult.transportError)
    (he2 : polls (s.pollCount + 2) = PollResult.transportError) :
    runPoll polls 3 s
      = some (LoopResult.pollingError,
          ⟨3, some q, s.pollCount + 3, s.delays ++ [5, 10, 5, 10, 5]⟩) := by
  obtain ⟨ne, rd0, pc, ds⟩ := s
  simp only at hrd hne he0 he1 he2
  subst hrd hne
  rw [runPoll_error_backoff_step polls ⟨0, some q, pc, ds⟩ q he0 (by norm_num) rfl h1 h2 2]
  rw [runPoll_error_backoff_step polls ⟨0 + 1, some q, pc + 1, ds ++ [5, 10]⟩ q he1
    (by norm_num) rfl h1 h2 1]
  have he2b : polls (pc + 1 + 1) = PollResult.transportError := he2
  rw [runPoll_error_fatal_step polls
    ⟨0 + 1 + 1, some q, pc + 1 + 1, (ds ++ [5, 10]) ++ [5, 10]⟩ he2b (by norm_num) 0]
  simp [List.append_assoc]

/-- Witness for the amended C3: a concrete job that saw one successful
`"processing"` poll and then three straight transport errors. -/
theorem c3_witness :
    runPoll (fun _ => PollResult.transportError) 3 ⟨0, some ⟨"processing", 0⟩, 1, [5]⟩
      = some (LoopResult.pollingError, ⟨3, some ⟨"processing", 0⟩, 1 + 3, [5] ++ [5, 10, 5, 10, 5]⟩) :=
  c3_three_errors_amended (fun _ => PollResult.transportError)
    ⟨0, some ⟨"processing", 0⟩, 1, [5]⟩ ⟨"processing", 0⟩
    rfl rfl (by decide) (by decide) rfl rfl rfl

/-- C4 (code-bug evidence): a transport error on the very first status
poll of a fresh item, with the error counter at 1 (at most 2), does NOT
quietly back off and retry — after the 10-unit backoff the code reads
`responseData.status` while `responseData` is still undefined, so the
iteration ends the run with a `TypeError` after exactly 1 GET attempt. -/
theorem c4_first_error_crashes :
    runPoll (fun _ => PollResult.transportError) 1 (initLoopState none)
      = some (LoopResult.typeError, ⟨1, none, 1, [5, 10]⟩)
    ∧ runPoll (fun _ => PollResult.transportError) 1 (initLoopState none) ≠ none :=
  ⟨rfl, by decide⟩

/-- C10: while every poll succeeds with a status that is neither
`"failed"` nor `"succeeded"` (for example `"canceled"`), the loop never
terminates: for every iteration bound the run is still unfinished, so the
client neither returns a result nor raises an error for the item. -/
theorem c10_nonterminal_never_terminates (polls : Nat → PollResult)
    (h : ∀ i, ∃ p, polls i = PollResult.ok p
      ∧ p.status ≠ "failed" ∧ p.status ≠ "succeeded") :
    ∀ (fuel : Nat) (s : LoopState), runPoll polls fuel s = none := by
  intro fuel
  induction fuel with
  | zero => intro s; rfl
  | succ n ihn =>
    intro s
    obtain ⟨p, hp, h1, h2⟩ := h s.pollCount
    rw [runPoll_pending_step polls s p hp h1 h2 n]
    exact ihn _

/-- Witness for C10: a job stuck on `"canceled"` is still looping after
7 iterations. -/
theorem c10_witness :
    runPoll (fun _ => PollResult.ok ⟨"canceled", 0⟩) 7 (initLoopState none) = none :=
  c10_nonterminal_never_terminates (fun _ => PollResult.ok ⟨"canceled", 0⟩)
    (fun _ => ⟨⟨"canceled", 0⟩, rfl, by decide, by decide⟩) 7 (initLoopState none)

/-- Witness for C7 (its statement quantifies over `t`; instantiated at a
declared type outside the enumerated set to also exercise the fallback). -/
theorem c7_witness :
    (coerceType "array" = "number" ∨ coerceType "array" = "boolean"
      ∨ coerceType "array" = "string")
    ∧ coerceType (coerceType "array") = coerceType "array"
    ∧ coerceType "integer" = "number" ∧ coerceType "number" = "number"
    ∧ coerceType "boolean" = "boolean" ∧ coerceType "string" = "string"
    ∧ coerceType "array" = "string" ∧ coerceType "object" = "string" :=
  c7_coercion_total_idempotent "array"

/-- The `urls` object of a submission response; `get` is the
status-polling URL (`res.urls?.get`, line 304). -/
structure Urls where
  get : Option String
deriving DecidableEq, Repr

/-- A submission (POST `/v1/predictions`) response, reduced to the only
field `execute` reads from it. -/
structure SubmitResponse where
  urls : Option Urls
deriving DecidableEq, Repr

/-- `res.urls?.get`: optional chaining through the `urls` object. -/
def getUrlOf (res : SubmitResponse) : Option String :=
  match res.urls with
  | none => none
  | some u => u.get

/-- JavaScript truthiness of `getUrl` as tested by `if (!getUrl)` at line
305: `undefined` and the empty string are falsy. -/
def jsTruthyStr : Option String → Bool
  | none => false
  | some s => decide (s ≠ "")

/-- The errors `execute` can raise for an item, one constructor per
`throw` site (plus the implicit `TypeError`). -/
inductive NodeErr where
  | submissionError
  | pollingError
  | predictionFailed (p : Payload)
  | typeError
deriving DecidableEq, Repr

/-- How a finished polling loop maps to the item's outcome. -/
def loopResultToExcept : LoopResult → Except NodeErr Payload
  | LoopResult.success p => Except.ok p
  | LoopResult.predictionFailed p => Except.error (NodeErr.predictionFailed p)
  | LoopResult.pollingError => Except.error NodeErr.pollingError
  | LoopResult.typeError => Except.error NodeErr.typeError

/-- The remote environment of one input item: its submission response and
the outcomes of its successive status polls. -/
structure ItemEnv where
  submitRes : SubmitResponse
  polls : Nat → PollResult

/-- Processing of one input item (lines 296-344): the submission has
happened and produced `env.submitRes`; if the response has no truthy
`urls.get`, throw (`SubmissionError`); otherwise run the polling loop,
starting from the inherited `responseData` value `rd`. `none` = the
polling loop was still running after `fuel` iterations. -/
def processItem (env : ItemEnv) (rd : Option Payload) (fuel : Nat) :
    Option (Except NodeErr Payload) :=
  if jsTruthyStr (getUrlOf env.submitRes) then
    match runPoll env.polls fuel (initLoopState rd) with
    | none => none
    | some r => some (loopResultToExcept r.1)
  else some (Except.error NodeErr.submissionError)

/-- The batch loop of `execute` (lines 280-351), processing items left to
right. Besides the outcome it returns the list of item indices for which
a submission POST was issued: an index enters the list exactly when its
iteration of the `for` loop runs. The `rd` argument threads the
`responseData` variable across items. On success each payload is paired
with its originating item index (`constructExecutionMetaData` with
`itemData: { item: i }`, lines 346-349). -/
def execBatch (envs : List ItemEnv) (rd : Option Payload) (fuel : Nat) (i : Nat) :
    Option (Except NodeErr (List (Payload × Nat)) × List Nat) :=
  match envs with
  | [] => some (Except.ok [], [])
  | env :: rest =>
    match processItem env rd fuel with
    | none => none
    | some (Except.error e) => some (Except.error e, [i])
    | some (Except.ok p) =>
      match execBatch rest (some p) fuel (i + 1) with
      | none => none
      | some (Except.error e, subs) => some (Except.error e, i :: subs)
      | some (Except.ok results, subs) => some (Except.ok ((p, i) :: results), i :: subs)

/-- Top-level `execute` for the prediction operation: items from index 0,
`responseData` initially undefined. -/
def execute (envs : List ItemEnv) (fuel : Nat) :
    Option (Except NodeErr (List (Payload × Nat)) × List Nat) :=
  execBatch envs none fuel 0

/-- Pair each payload with its item index, starting at `i`. -/
def tagFrom (i : Nat) : List Payload → List (Payload × Nat)
  | [] => []
  | q :: qs => (q, i) :: tagFrom (i + 1) qs

/-- C5: submission of an item fails with the fatal `SubmissionError`
exactly when the submission response lacks a (truthy) status-polling URL
— i.e. `res.urls?.get` is absent or empty, which JavaScript treats as
missing; and when a status URL is present the item raises no submission
error and proceeds directly into the polling loop. -/
theorem c5_submission (env : ItemEnv) (rd : Option Payload) (fuel : Nat) :
    (processItem env rd fuel = some (Except.error NodeErr.submissionError)
      ↔ (getUrlOf env.submitRes = none ∨ getUrlOf env.submitRes = some ""))
    ∧ (∀ u : String, getUrlOf env.submitRes = some u → u ≠ "" →
        processItem env rd fuel
          = (runPoll env.polls fuel (initLoopState rd)).map
              (fun r => loopResultToExcept r.1)) := by
  constructor
  · constructor
    · intro h
      by_cases ht : jsTruthyStr (getUrlOf env.submitRes) = true
      · exfalso
        simp only [processItem, if_pos ht] at h
        cases hrun : runPoll env.polls fuel (initLoopState rd) with
        | none => rw [hrun] at h; exact Option.noConfusion h
        | some r =>
          rw [hrun] at h
          cases hr : r.1 <;> simp [hr, loopResultToExcept] at h
      · cases hu : getUrlOf env.submitRes with
        | none => exact Or.inl rfl
        | some s =>
          right
          rw [hu] at ht
          simp [jsTruthyStr] at ht
          rw [ht]
    · intro h
      have ht : jsTruthyStr (getUrlOf env.submitRes) = false := by
        rcases h with h | h <;> rw [h] <;> simp [jsTruthyStr]
      simp [processItem, ht]
  · intro u hu hne
    have ht : jsTruthyStr (getUrlOf env.submitRes) = true := by
      rw [hu]; simp [jsTruthyStr, hne]
    simp only [processItem, if_pos ht]
    cases runPoll env.polls fuel (initLoopState rd) <;> rfl

/-- A submission response carrying a usable polling URL, and an
environment whose polls immediately succeed. -/
def envOk : ItemEnv :=
  ⟨⟨some ⟨some "poll-url"⟩⟩, fun _ => PollResult.ok ⟨"succeeded", 42⟩⟩

/-- A submission response with no `urls` object at all (no `get` URL). -/
def envBad : ItemEnv := ⟨⟨none⟩, fun _ => PollResult.ok ⟨"succeeded", 42⟩⟩

/-- Witness for C5: with a present, non-empty status URL the item goes
straight into polling. -/
theorem c5_witness :
    processItem envOk none 1
      = (runPoll envOk.polls 1 (initLoopState none)).map
          (fun r => loopResultToExcept r.1) :=
  (c5_submission envOk none 1).2 "poll-url" rfl (by decide)

/-- Helper: if every item in the batch succeeds with its payload
(whatever `responseData` it inherits), the batch loop submits every item
in order and returns one result per item, tagged with its index. -/
theorem execBatch_all_ok (fuel : Nat) :
    ∀ (envs : List ItemEnv) (qs : List Payload) (i : Nat) (rd : Option Payload),
      List.Forall₂ (fun env q => ∀ rd2, processItem env rd2 fuel = some (Except.ok q)) envs qs →
      execBatch envs rd fuel i
        = some (Except.ok (tagFrom i qs), List.range' i qs.length) := by
  intro envs
  induction envs with
  | nil =>
    intro qs i rd hall
    cases hall
    rfl
  | cons env rest ih =>
    intro qs i rd hall
    cases hall with
    | cons hq hrest =>
      rename_i q qs2
      simp only [execBatch, hq rd, ih qs2 (i + 1) (some q) hrest]
      rfl

/-- Helper: if the items before position `j` all succeed and the item at
position `j` fails fatally (whatever `responseData` it inherits), the
batch loop aborts with that error, having submitted exactly the items up
to and including `j` — in particular no call of any kind is made for the
items after `j`, and no accumulated result survives. -/
theorem execBatch_abort (fuel : Nat) (e : NodeErr) :
    ∀ (pre : List ItemEnv) (qs : List Payload) (envBad2 : ItemEnv) (rest : List ItemEnv)
      (i : Nat) (rd : Option Payload),
      List.Forall₂ (fun env q => ∀ rd2, processItem env rd2 fuel = some (Except.ok q)) pre qs →
      (∀ rd2, processItem envBad2 rd2 fuel = some (Except.error e)) →
      execBatch (pre ++ envBad2 :: rest) rd fuel i
        = some (Except.error e, List.range' i (qs.length + 1)) := by
  intro pre
  induction pre with
  | nil =>
    intro qs envBad2 rest i rd hall hbad
    cases hall
    simp only [List.nil_append, execBatch, hbad rd]
    rfl
  | cons env pre2 ih =>
    intro qs envBad2 rest i rd hall hbad
    cases hall with
    | cons hq hrest =>
      rename_i q qs2
      simp only [List.cons_append, execBatch, hq rd]
      have ihx : execBatch (pre2.append (envBad2 :: rest)) (some q) fuel (i + 1)
          = some (Except.error e, List.range' (i + 1) (qs2.length + 1)) :=
        ih qs2 envBad2 rest (i + 1) (some q) hrest hbad
      rw [ihx]
      rfl

/-- C6: batch orchestration. First conjunct: a fully successful batch
returns exactly one result per item, in input order, each tagged with its
originating item index, and every item was submitted (indices
`0 .. N-1`). Second conjunct: if the items before position `j` succeed
and item `j` fails fatally, the whole batch yields that error and no
partial output — the earlier successful payloads are discarded — and the
submitted indices are exactly `0 .. j`, so no call is made for any later
item (the conclusion does not depend on `rest` at all). -/
theorem c6_batch_orchestration (fuel : Nat) :
    (∀ (envs : List ItemEnv) (qs : List Payload),
      List.Forall₂ (fun env q => ∀ rd, processItem env rd fuel = some (Except.ok q)) envs qs →
      execute envs fuel = some (Except.ok (tagFrom 0 qs), List.range' 0 qs.length))
    ∧ (∀ (pre : List ItemEnv) (qs : List Payload) (envBad2 : ItemEnv)
        (rest : List ItemEnv) (e : NodeErr),
      List.Forall₂ (fun env q => ∀ rd, processItem env rd fuel = some (Except.ok q)) pre qs →
      (∀ rd, processItem envBad2 rd fuel = some (Except.error e)) →
      execute (pre ++ envBad2 :: rest) fuel
        = some (Except.error e, List.range' 0 (qs.length + 1))) := by
  constructor
  · intro envs qs hall
    exact execBatch_all_ok fuel envs qs 0 none hall
  · intro pre qs envBad2 rest e hall hbad
    exact execBatch_abort fuel e pre qs envBad2 rest 0 none hall hbad

/-- Witness for C6, on the spec's `[A, B, C]` scenario: `A` succeeds,
`B`'s submission response has no status URL, `C` is never reached — the
batch aborts with the submission error having submitted only items 0 and
1, and `A`'s payload is discarded. Also a fully successful singleton
batch, for the first conjunct. -/
theorem c6_witness :
    execute [envOk] 1
      = some (Except.ok (tagFrom 0 [(⟨"succeeded", 42⟩ : Payload)]), List.range' 0 1)
    ∧ execute [envOk, envBad, envOk] 1
      = some (Except.error NodeErr.submissionError, List.range' 0 2) := by
  constructor
  · exact (c6_batch_orchestration 1).1 [envOk] [⟨"succeeded", 42⟩]
      (List.Forall₂.cons (fun rd2 => rfl) List.Forall₂.nil)
  · exact (c6_batch_orchestration 1).2 [envOk] [⟨"succeeded", 42⟩] envBad [envOk]
      NodeErr.submissionError
      (List.Forall₂.cons (fun rd2 => rfl) List.Forall₂.nil) (fun rd2 => rfl)

/-- A JavaScript primitive value, as can sit in a property object.
`null` is distinct from an absent field. -/
inductive JsVal where
  | str (s : String)
  | num (n : Int)
  | bool (b : Bool)
  | null
deriving DecidableEq, Repr

/-- A JS object, modelled as an association list (keys unique in
practice; lookup takes the first binding). -/
abbrev JsObj := List (String × JsVal)

/-- `String.prototype.split` with a one-character separator, on the
character list of the string: `"a|b" → ["a", "b"]`, `"" → [""]`. -/
def splitOnChar (c : Char) : List Char → List (List Char)
  | [] => [[]]
  | a :: as =>
    match splitOnChar c as with
    | [] => if a = c then [[], []] else [[a]]
    | g :: gs => if a = c then [] :: g :: gs else (a :: g) :: gs

/-- `key.split('|')` as a list of strings. -/
def splitKey (k : String) : List String :=
  (splitOnChar (Char.ofNat 124) k.toList).map (fun cs => String.mk cs)

example : splitKey "flag|boolean" = ["flag", "boolean"] := rfl
example : splitKey "abc" = ["abc"] := rfl

/-- `prop.key.split('|')[0]` — in JS an out-of-range index would be
`undefined`; `split` never returns an empty array, so index 0 exists. -/
def entryKey (k : String) : String := ((splitKey k)[0]?).getD ""

/-- The slot name `` `${type}Value` `` where `type = key.split('|')[1]`;
if the key has no `|`, JS interpolates `undefined` into the template
string, giving `"undefinedValue"`. -/
def slotName (k : String) : String :=
  match (splitKey k)[1]? with
  | some t => t ++ "Value"
  | none => "undefinedValue"

/-- `prop[`${type}Value`] ?? ''` (line 367): nullish coalescing — an
absent slot and a `null` slot both fall back to the empty string. -/
def resolveValue (prop : JsObj) (k : String) : JsVal :=
  match List.lookup (slotName k) prop with
  | none => JsVal.str ""
  | some JsVal.null => JsVal.str ""
  | some v => v

/-- `typeof property.key === 'string'` (line 363): the `key` field must
be present and hold a string. -/
def keyString (prop : JsObj) : Option String :=
  match List.lookup "key" prop with
  | some (JsVal.str s) => some s
  | _ => none

/-- One step of the `reduce(Object.assign ...)` accumulation: JS object
assignment overwrites an existing key in place, else appends. -/
def setField (obj : JsObj) (k : String) (v : JsVal) : JsObj :=
  if obj.any (fun p2 => p2.1 == k) then
    obj.map (fun p2 => if p2.1 == k then (k, v) else p2)
  else obj ++ [(k, v)]

/-- `mapProperties` (lines 359-377): keep properties with a string `key`,
map each to the pair `(key.split('|')[0], prop[`${type}Value`] ?? '')`,
and fold them into one object. -/
def mapProperties (properties : List JsObj) : JsObj :=
  ((properties.filterMap (fun prop =>
      match keyString prop with
      | some k => some (prop, k)
      | none => none)).map
    (fun pk => (entryKey pk.2, resolveValue pk.1 pk.2))).foldl
      (fun obj kv => setField obj kv.1 kv.2) []

example : mapProperties [[("key", JsVal.str "flag|boolean"), ("booleanValue", JsVal.bool true)]]
    = [("flag", JsVal.bool true)] := rfl

/-- C8 counterexample: a boolean-typed selection whose `booleanValue`
slot was never populated is sent as the empty string, not as the boolean
zero value `false` — `?? ''` falls back to `''` for every type. -/
theorem c8_counterexample :
    mapProperties [[("key", JsVal.str "flag|boolean")]] = [("flag", JsVal.str "")]
    ∧ JsVal.str "" ≠ JsVal.bool false :=
  ⟨rfl, by decide⟩

/-- C8 (amended): the value sent for a selection is read from the slot
named `` `${coercedType}Value` ``; if that slot was never populated (or is
`null`), it silently defaults to the empty string — for every coerced
type, not to the per-type zero values `false` / `0` — and no error is
raised. -/
theorem c8_value_resolution (prop : JsObj) (k : String)
    (hk : keyString prop = some k) :
    mapProperties [prop] = [(entryKey k, resolveValue prop k)]
    ∧ (List.lookup (slotName k) prop = none → resolveValue prop k = JsVal.str "") := by
  constructor
  · simp only [mapProperties, List.filterMap, hk, List.map, List.foldl, setField]
    rfl
  · intro h
    simp only [resolveValue, h]

/-- Witness for the amended C8: a number-typed selection with no
`numberValue` slot resolves to the empty string. -/
theorem c8_witness :
    mapProperties [[("key", JsVal.str "x|number")]]
      = [(entryKey "x|number", resolveValue [("key", JsVal.str "x|number")] "x|number")]
    ∧ (List.lookup (slotName "x|number") [("key", JsVal.str "x|number")] = none →
        resolveValue [("key", JsVal.str "x|number")] "x|number" = JsVal.str "") :=
  c8_value_resolution [("key", JsVal.str "x|number")] "x|number" rfl

/-- A version descriptor as used by `getModelVersions`: its identifier
and its creation timestamp (`new Date(created_at).getTime()`, modelled
directly as an integer time value). -/
structure VersionInfo where
  id : String
  created_at : Int
deriving DecidableEq, Repr

/-- Stable descending insertion: `a` goes in front of the first element
that is not strictly newer, so among equal timestamps earlier input stays
first. -/
def insertVersion (a : VersionInfo) : List VersionInfo → List VersionInfo
  | [] => [a]
  | b :: l =>
    if b.created_at ≤ a.created_at then a :: b :: l else b :: insertVersion a l

/-- The `results.sort((a, b) => timeB - timeA)` step (lines 212-214):
a stable sort, descending by creation timestamp (JS `Array.prototype.sort`
is stable), modelled as stable insertion sort. -/
def sortVersions : List VersionInfo → List VersionInfo
  | [] => []
  | a :: l => insertVersion a (sortVersions l)

/-- Boolean list-prefix test. -/
def prefixOfB : List Char → List Char → Bool
  | [], _ => true
  | _ :: _, [] => false
  | a :: as, b :: bs => a == b && prefixOfB as bs

/-- Boolean contiguous-sublist test, used to model
`String.prototype.includes`. -/
def infixOfB (n : List Char) : List Char → Bool
  | [] => prefixOfB n []
  | b :: bs => prefixOfB n (b :: bs) || infixOfB n bs

/-- `hay.includes(needle)` (line 216). -/
def containsSub (hay needle : String) : Bool := infixOfB needle.toList hay.toList

/-- `getModelVersions` (lines 194-226): sort all versions descending by
creation time, then keep those whose id contains the filter string. -/
def getModelVersions (filter : String) (results : List VersionInfo) : List VersionInfo :=
  (sortVersions results).filter (fun v => containsSub v.id filter)

/-- Helper: inserting is a permutation of consing. -/
theorem perm_insertVersion (a : VersionInfo) (l : List VersionInfo) :
    List.Perm (insertVersion a l) (a :: l) := by
  induction l with
  | nil => exact List.Perm.refl [a]
  | cons b l ih =>
    by_cases hba : b.created_at ≤ a.created_at
    · simp only [insertVersion, if_pos hba]
      exact List.Perm.refl _
    · simp only [insertVersion, if_neg hba]
      exact List.Perm.trans (List.Perm.cons b ih) (List.Perm.swap a b l)

/-- Helper: the sort is a permutation of its input. -/
theorem perm_sortVersions (l : List VersionInfo) :
    List.Perm (sortVersions l) l := by
  induction l with
  | nil => exact List.Perm.refl []
  | cons a l ih =>
    exact List.Perm.trans (perm_insertVersion a (sortVersions l)) (List.Perm.cons a ih)

/-- Helper: inserting preserves descending sortedness. -/
theorem sorted_insertVersion (a : VersionInfo) (l : List VersionInfo)
    (h : List.Sorted (fun x y => y.created_at ≤ x.created_at) l) :
    List.Sorted (fun x y => y.created_at ≤ x.created_at) (insertVersion a l) := by
  induction l with
  | nil => simp [insertVersion]
  | cons b l ih =>
    rw [List.sorted_cons] at h
    obtain ⟨hb, hl⟩ := h
    by_cases hba : b.created_at ≤ a.created_at
    · simp only [insertVersion, if_pos hba]
      rw [List.sorted_cons]
      refine ⟨?_, ?_⟩
      · intro x hx
        rcases List.mem_cons.mp hx with h1 | h2
        · rw [h1]; exact hba
        · exact le_trans (hb x h2) hba
      · rw [List.sorted_cons]; exact ⟨hb, hl⟩
    · simp only [insertVersion, if_neg hba]
      rw [List.sorted_cons]
      refine ⟨?_, ih hl⟩
      intro x hx
      have hmem : x ∈ a :: l := (perm_insertVersion a l).mem_iff.mp hx
      rcases List.mem_cons.mp hmem with h1 | h2
      · rw [h1]; exact le_of_not_le hba
      · exact hb x h2

/-- Helper: the sort output is descending by creation time. -/
theorem sorted_sortVersions (l : List VersionInfo) :
    List.Sorted (fun x y => y.created_at ≤ x.created_at) (sortVersions l) := by
  induction l with
  | nil => simp [sortVersions]
  | cons a l ih => exact sorted_insertVersion a (sortVersions l) ih

/-- Helper: inserting interacts with filtering on one timestamp class the
way a stable algorithm must — the inserted element lands in front of its
timestamp class exactly when it carries that timestamp. -/
theorem filter_insertVersion (t : Int) (a : VersionInfo) (l : List VersionInfo) :
    (insertVersion a l).filter (fun v => decide (v.created_at = t))
      = if a.created_at = t
        then a :: l.filter (fun v => decide (v.created_at = t))
        else l.filter (fun v => decide (v.created_at = t)) := by
  induction l with
  | nil =>
    by_cases hat : a.created_at = t <;> simp [insertVersion, List.filter_cons, hat]
  | cons b l ih =>
    by_cases hba : b.created_at ≤ a.created_at
    · simp only [insertVersion, if_pos hba]
      by_cases hat : a.created_at = t <;> simp [List.filter_cons, hat]
    · simp only [insertVersion, if_neg hba]
      rw [List.filter_cons, ih]
      by_cases hat : a.created_at = t
      · have hbt : ¬b.created_at = t := by
          intro hbt
          exact hba (le_of_eq (hbt.trans hat.symm))
        simp [List.filter_cons, hat, hbt]
      · by_cases hbt : b.created_at = t <;> simp [List.filter_cons, hat, hbt]

/-- Helper: stability — the sort does not reorder versions that share a
creation timestamp. -/
theorem filter_sortVersions (t : Int) (l : List VersionInfo) :
    (sortVersions l).filter (fun v => decide (v.created_at = t))
      = l.filter (fun v => decide (v.created_at = t)) := by
  induction l with
  | nil => rfl
  | cons a l ih =>
    show (insertVersion a (sortVersions l)).filter _ = _
    rw [filter_insertVersion, List.filter_cons, ih]
    by_cases hat : a.created_at = t <;> simp [hat]

/-- Helper: the Boolean prefix test means "is a prefix". -/
theorem prefixOfB_iff (n : List Char) :
    ∀ h, prefixOfB n h = true ↔ ∃ rest, n ++ rest = h := by
  induction n with
  | nil => intro h; simp [prefixOfB]
  | cons a as ih =>
    intro h
    cases h with
    | nil => simp [prefixOfB]
    | cons b bs =>
      simp only [prefixOfB, Bool.and_eq_true, beq_iff_eq, List.cons_append,
        List.cons.injEq]
      constructor
      · rintro ⟨rfl, hp⟩
        obtain ⟨rest, hr⟩ := (ih bs).mp hp
        exact ⟨rest, rfl, hr⟩
      · rintro ⟨rest, h1, h2⟩
        exact ⟨h1, (ih bs).mpr ⟨rest, h2⟩⟩

/-- Helper: the Boolean infix test means "occurs as a contiguous
substring". -/
theorem infixOfB_iff (n : List Char) :
    ∀ h, infixOfB n h = true ↔ ∃ pre post, (pre ++ n) ++ post = h := by
  intro h
  induction h with
  | nil =>
    simp only [infixOfB, prefixOfB_iff]
    constructor
    · rintro ⟨rest, hr⟩
      exact ⟨[], rest, by simpa using hr⟩
    · rintro ⟨pre, post, hp⟩
      rcases List.append_eq_nil.mp hp with ⟨hpn, hpost⟩
      rcases List.append_eq_nil.mp hpn with ⟨hpre, hn⟩
      exact ⟨[], by simp [hn]⟩
  | cons c t iht =>
    simp only [infixOfB, Bool.or_eq_true, prefixOfB_iff, iht]
    constructor
    · rintro (⟨rest, hr⟩ | ⟨pre, post, hp⟩)
      · exact ⟨[], rest, by simpa using hr⟩
      · exact ⟨c :: pre, post, by rw [← hp]; simp⟩
    · rintro ⟨pre, post, hp⟩
      cases pre with
      | nil => exact Or.inl ⟨post, by simpa using hp⟩
      | cons c2 pre2 =>
        simp only [List.cons_append] at hp
        injection hp with h1 h2
        exact Or.inr ⟨pre2, post, h2⟩

/-- Helper: the empty needle is a substring of everything
(`''.includes` semantics). -/
theorem infixOfB_nil (h : List Char) : infixOfB [] h = true := by
  cases h <;> simp [infixOfB, prefixOfB]

/-- C9: version listing returns a permutation of the fetched versions,
sorted descending by creation timestamp with ties keeping stable input
order (no reordering inside a timestamp class), filtered — in that sorted
order — to exactly the versions whose identifier contains the filter
string as a substring; the empty filter passes every version. -/
theorem c9_version_listing (filter : String) (results : List VersionInfo) :
    List.Perm (sortVersions results) results
    ∧ List.Sorted (fun x y => y.created_at ≤ x.created_at) (sortVersions results)
    ∧ (∀ t : Int,
        (sortVersions results).filter (fun v => decide (v.created_at = t))
          = results.filter (fun v => decide (v.created_at = t)))
    ∧ getModelVersions filter results
        = (sortVersions results).filter (fun v => containsSub v.id filter)
    ∧ (∀ v, v ∈ getModelVersions filter results
        ↔ v ∈ results ∧ ∃ pre post, (pre ++ filter.toList) ++ post = v.id.toList)
    ∧ getModelVersions "" results = sortVersions results := by
  refine ⟨perm_sortVersions results, sorted_sortVersions results,
    fun t => filter_sortVersions t results, rfl, ?_, ?_⟩
  · intro v
    rw [getModelVersions, List.mem_filter, (perm_sortVersions results).mem_iff,
      containsSub, infixOfB_iff]
  · rw [getModelVersions]
    apply List.filter_eq_self.mpr
    intro v hv
    exact infixOfB_nil v.id.toList
